import Mathlib

/-
Verification of the sandbox test-runner repository: a shallow embedding of the
pod/route readiness waiters, the runner (batch execution and teardown), the
cleaner (auto-destruct timer), the server-side authentication middleware and
test handler, and the JSON wire form, together with theorems settling the
specification claims.
-/

namespace Sandbox

/-! ## Readiness waiters (internal/wait file: WaitForPod, WaitForRoute) -/

/-- Embedding of corev1.PodCondition: only the Type and Status fields are read
by the waiters. -/
structure PodCondition where
  typ : String
  status : String
deriving DecidableEq

/-- Embedding of corev1.Pod: the name (metadata) and the status conditions,
the only parts the waiters inspect. -/
structure Pod where
  name : String
  conditions : List PodCondition
deriving DecidableEq

/-- Embedding of isPodReady: scans the conditions and reports true on the
first condition with Type Ready and Status True. -/
def isPodReady (pod : Pod) : Bool :=
  pod.conditions.any (fun condition =>
    condition.typ == "Ready" && condition.status == "True")

/-- Embedding of routev1.RouteIngress conditions: Type and Status fields. -/
structure RouteCondition where
  typ : String
  status : String
deriving DecidableEq

/-- Embedding of routev1.RouteIngress: only its conditions are read. -/
structure RouteIngress where
  conditions : List RouteCondition
deriving DecidableEq

/-- Embedding of routev1.Route: name, spec host, and status ingresses, the
parts the waiter and its caller use. -/
structure Route where
  name : String
  host : String
  ingress : List RouteIngress
deriving DecidableEq

/-- Embedding of isIngressAdmitted: true on the first condition with Type
Admitted and Status True. -/
def isIngressAdmitted (ingress : RouteIngress) : Bool :=
  ingress.conditions.any (fun condition =>
    condition.typ == "Admitted" && condition.status == "True")

/-- Embedding of isRouteAdmitted: the route is admitted when every ingress is
admitted (vacuously true when there are no ingresses, as in the source). -/
def isRouteAdmitted (route : Route) : Bool :=
  route.ingress.all isIngressAdmitted

/-- Embedding of a delivered watch.Event. The object of an Added or Modified
event is none when the type assertion to the expected resource type fails;
deleted and errorEvent carry no usable object; unknown covers any other event
type, which the source logs and ignores. -/
inductive WatchEvent (α : Type) where
  | added (obj : Option α)
  | modified (obj : Option α)
  | deleted
  | errorEvent
  | unknown
deriving DecidableEq

/-- Embedding of the event loop of WaitForPod over the list of events actually
delivered by the watch channel before it closes. Mirrors the source exactly:
an Added or Modified event whose object is a ready pod records the pod and
requests Stop, but the break statement only leaves the switch, so the loop
keeps consuming whatever events are still delivered; a Deleted or Error event
returns immediately with an error; the loop ending (channel closed, e.g. the
60 second watch bound expiring) returns whatever pod and error are currently
recorded. -/
def waitForPodLoop (name : String) :
    List (WatchEvent Pod) → Option Pod → Option Pod × Option String
  | [], pod => (pod, none)
  | .added obj :: rest, pod =>
    match obj with
    | none => waitForPodLoop name rest pod
    | some tmp =>
      if isPodReady tmp then waitForPodLoop name rest (some tmp)
      else waitForPodLoop name rest pod
  | .modified obj :: rest, pod =>
    match obj with
    | none => waitForPodLoop name rest pod
    | some tmp =>
      if isPodReady tmp then waitForPodLoop name rest (some tmp)
      else waitForPodLoop name rest pod
  | .deleted :: _, pod =>
    (pod, some ("pod " ++ name ++ " was deleted while waiting for it to be ready"))
  | .errorEvent :: _, pod =>
    (pod, some ("unexpected error while waiting for pod " ++ name ++ " to be ready"))
  | .unknown :: rest, pod => waitForPodLoop name rest pod

/-- Embedding of WaitForPod: watches every pod of the project (the list
options carry only the 60 second timeout, no name or field selector) and runs
the event loop starting with no pod recorded. The project argument only
selects the watched stream. -/
def WaitForPod (project name : String) (events : List (WatchEvent Pod)) :
    Option Pod × Option String :=
  let _ := project
  waitForPodLoop name events none

/-- Embedding of the event loop of WaitForRoute, structured exactly like the
pod loop but with the route admission predicate. -/
def waitForRouteLoop (name : String) :
    List (WatchEvent Route) → Option Route → Option Route × Option String
  | [], route => (route, none)
  | .added obj :: rest, route =>
    match obj with
    | none => waitForRouteLoop name rest route
    | some tmp =>
      if isRouteAdmitted tmp then waitForRouteLoop name rest (some tmp)
      else waitForRouteLoop name rest route
  | .modified obj :: rest, route =>
    match obj with
    | none => waitForRouteLoop name rest route
    | some tmp =>
      if isRouteAdmitted tmp then waitForRouteLoop name rest (some tmp)
      else waitForRouteLoop name rest route
  | .deleted :: _, route =>
    (route, some ("route " ++ name ++ " was deleted while waiting for it to be admitted"))
  | .errorEvent :: _, route =>
    (route, some ("unexpected error while waiting for route " ++ name ++ " to be admitted"))
  | .unknown :: rest, route => waitForRouteLoop name rest route

/-- Embedding of WaitForRoute: watches every route of the project (60 second
timeout, no name selector) and runs the event loop with no route recorded. -/
def WaitForRoute (project name : String) (events : List (WatchEvent Route)) :
    Option Route × Option String :=
  let _ := project
  waitForRouteLoop name events none

/-- Claim-side definition (for the amended statement of the implicit waiter
claim): the pod recorded after folding the whole delivered stream, keeping the
most recently observed ready pod. -/
def lastReadyPod (events : List (WatchEvent Pod)) : Option Pod :=
  events.foldl
    (fun acc e =>
      match e with
      | .added (some p) => if isPodReady p then some p else acc
      | .modified (some p) => if isPodReady p then some p else acc
      | _ => acc)
    none

/-- Claim-side definition: the most recently observed admitted route of the
delivered stream. -/
def lastAdmittedRoute (events : List (WatchEvent Route)) : Option Route :=
  events.foldl
    (fun acc e =>
      match e with
      | .added (some r) => if isRouteAdmitted r then some r else acc
      | .modified (some r) => if isRouteAdmitted r then some r else acc
      | _ => acc)
    none

/-- Predicate: the delivered stream contains no Deleted and no Error event. -/
def benignStream {α : Type} (events : List (WatchEvent α)) : Prop :=
  ∀ e ∈ events, e ≠ WatchEvent.deleted ∧ e ≠ WatchEvent.errorEvent

/-! ## Runner teardown and builder (runner file: Runner.Destroy,
RunnerBuilder.Build) -/

/-- Outcome of the delete call issued to the projects API. -/
inductive DeleteOutcome where
  | ok
  | notFound
  | failure
deriving DecidableEq

/-- Observable trace of Runner.Destroy: whether a delete was issued to the
projects API and whether Destroy returned an error. -/
structure DestroyTrace where
  deleteIssued : Bool
  returnedError : Bool
deriving DecidableEq

/-- Embedding of Runner.Destroy: the source guards the whole deletion block
with the keep flag itself (if r.keep), so a delete is issued exactly when keep
is true; inside that block an IsNotFound result is normalized to success. -/
def runnerDestroy (keep : Bool) (deleteResult : DeleteOutcome) : DestroyTrace :=
  if keep then
    match deleteResult with
    | .ok => { deleteIssued := true, returnedError := false }
    | .notFound => { deleteIssued := true, returnedError := false }
    | .failure => { deleteIssued := true, returnedError := true }
  else { deleteIssued := false, returnedError := false }

/-- Embedding of the cleaner-arming decision of RunnerBuilder.Build: the
cleaner pod is created only when keep is false (if not b.keep then
ensureCleaner). -/
def buildArmsCleaner (keep : Bool) : Bool := !keep

/-! ## Cleaner (cleaner file: Start, Stop, Destroy, do) -/

/-- Timing model of the started cleaner, read off the select in Start: the
timer channel fires at time wait after Start, the stop channel fires at the
time the stop signal is delivered (if any), and the select takes whichever
fires first; the stop branch cancels the timer and the timer branch runs do,
which issues exactly one delete of the owning project. The function returns
the time of the deletion attempt, or none when no deletion ever happens. -/
def cleanerDeletionTime (wait : Nat) (stopAt : Option Nat) : Option Nat :=
  match stopAt with
  | some t => if t < wait then none else some wait
  | none => some wait

/-- State of the stop channel of the cleaner: absent before Start creates it,
opened after Start, closed after Destroy. -/
inductive ChanState where
  | absent
  | opened
  | closed
deriving DecidableEq

/-- State of a cleaner after Build: the stop channel, whether the goroutine
launched by Start is still blocked in its select, and whether do has attempted
the deletion. -/
structure CleanerState where
  chan : ChanState
  armed : Bool
  deleted : Bool
deriving DecidableEq

/-- Embedding of Cleaner.Start: creates the stop channel, arms the timer and
launches the goroutine blocked in the select. -/
def cleanerStart : CleanerState :=
  { chan := .opened, armed := true, deleted := false }

/-- Embedding of the timer branch: when the goroutine is still in its select
and the deadline expires, the select takes the timer channel and runs do,
attempting the single deletion; after the goroutine has exited the expiry has
no receiver and changes nothing. -/
def timerFireStep (s : CleanerState) : CleanerState :=
  if s.armed then { s with armed := false, deleted := true } else s

/-- Embedding of Cleaner.Stop: sends true on the stop channel. The send
completes only while the goroutine is still in its select, in which case the
stop branch runs and cancels the timer; otherwise the send never completes
(no receiver remains), so no completed transition exists. -/
def stopSendStep (s : CleanerState) : Option CleanerState :=
  if s.armed then some { s with armed := false } else none

/-- Embedding of Cleaner.Destroy: close of the stop channel. Closing a nil or
an already closed channel is a fault (none); closing the open channel
succeeds, and a goroutine still blocked in the select then takes the stop
branch (a receive on a closed channel yields immediately), cancelling the
timer without running do. -/
def destroyStep (s : CleanerState) : Option CleanerState :=
  match s.chan with
  | .absent => none
  | .closed => none
  | .opened => some { chan := .closed, armed := false, deleted := s.deleted }

/-- States of the cleaner reachable from Start through timer expiry and
completed Stop calls (Destroy not yet called). -/
inductive CleanerReachable : CleanerState → Prop where
  | start : CleanerReachable cleanerStart
  | fire {s : CleanerState} :
      CleanerReachable s → CleanerReachable (timerFireStep s)
  | stop {s s' : CleanerState} :
      CleanerReachable s → stopSendStep s = some s' → CleanerReachable s'

/-! ## Runner batch execution (runner file: Runner.Run, Server.Send) -/

/-- Reply body of the server, as the runner reads it from api.Test: optional
output bytes, optional error bytes and the exit code. -/
structure SendReply where
  out : Option (List Nat)
  err : Option (List Nat)
  code : Int
deriving DecidableEq

/-- Oracle for the external effects of Runner.Run: reading a test binary from
disk (none is a read failure) and the HTTP round trip of Server.Send, mapping
the posted binary bytes to the response status and decoded body (none is a
transport failure of client.Do). -/
structure RunOracle where
  readFile : String → Option (List Nat)
  httpDo : List Nat → Option (Nat × SendReply)

/-- Embedding of Server.Send: posts the binary and fails on a transport error
or on any HTTP status other than 200 (so an authentication rejection, which
arrives as a non-200 status, is also a send failure). -/
def serverSend (o : RunOracle) (bytes : List Nat) : Option SendReply :=
  match o.httpDo bytes with
  | none => none
  | some (status, body) => if status ≠ 200 then none else some body

/-- Result of the batch loop of Runner.Run: the binary payloads sent to the
server, in send order, and the failure counter. -/
structure RunResult where
  requests : List (List Nat)
  failed : Nat
deriving DecidableEq

/-- Embedding of the batch loop of Runner.Run over the (already sorted) list
of test binaries: a read failure logs and continues with the next binary
without sending; a send failure logs and continues; a received reply with a
nonzero exit code increments the failure counter. Each iteration blocks on
its send before the next begins, exactly as the source loop does. -/
def runBinaries (o : RunOracle) : List String → RunResult
  | [] => { requests := [], failed := 0 }
  | binary :: rest =>
    match o.readFile binary with
    | none => runBinaries o rest
    | some bytes =>
      match serverSend o bytes with
      | none =>
        let r := runBinaries o rest
        { requests := bytes :: r.requests, failed := r.failed }
      | some response =>
        let r := runBinaries o rest
        { requests := bytes :: r.requests,
          failed := (if response.code ≠ 0 then 1 else 0) + r.failed }

/-- Byte-order comparison of two character lists, the order used by the Go
sort of strings (UTF-8 byte order agrees with code-point order). -/
def lexLe : List Char → List Char → Bool
  | [], _ => true
  | _ :: _, [] => false
  | a :: as, b :: bs =>
    if a.toNat < b.toNat then true
    else if a.toNat = b.toNat then lexLe as bs
    else false

/-- Lexicographic order on strings as a proposition, for the sort. -/
def strLE (a b : String) : Prop := lexLe a.toList b.toList = true

instance : DecidableRel strLE := fun a b =>
  instDecidableEqBool (lexLe a.toList b.toList) true

/-- Embedding of the Go sort of the binaries list: an ascending sort in
lexicographic order. -/
def sortStrings (l : List String) : List String := List.insertionSort strLE l

/-- Embedding of Runner.Run restricted to the part the claims are about: the
globbed binaries are sorted and then executed sequentially. -/
def runnerRun (o : RunOracle) (binaries : List String) : RunResult :=
  runBinaries o (sortStrings binaries)

/-- Predicate counted by the failure counter: the binary was read, the send
produced a reply, and the reply carried a nonzero exit code. -/
def failedBinary (o : RunOracle) (binary : String) : Bool :=
  match o.readFile binary with
  | none => false
  | some bytes =>
    match serverSend o bytes with
    | none => false
    | some response => response.code != 0

/-- Concrete oracle exercising a send failure: binary a.test reads as [1] and
its post dies in transport; binary b.test reads as [2] and succeeds with exit
code 0. -/
def sendFailureOracle : RunOracle where
  readFile binary :=
    if binary = "a.test" then some [1]
    else if binary = "b.test" then some [2]
    else none
  httpDo bytes :=
    if bytes = [2] then some (200, { out := none, err := none, code := 0 })
    else none

/-- Concrete oracle where every read and send succeeds: a.test exits 0 and
b.test exits 1. -/
def happyOracle : RunOracle where
  readFile binary :=
    if binary = "a.test" then some [1]
    else if binary = "b.test" then some [2]
    else none
  httpDo bytes :=
    if bytes = [1] then some (200, { out := some [111], err := none, code := 0 })
    else if bytes = [2] then some (200, { out := none, err := some [101], code := 1 })
    else none

/-! ## Authentication middleware (server file: authHandler.ServeHTTP) -/

/-- Split of a character list on every space, the semantics of the Go split
of the Authorization header on the single-space separator. -/
def splitSpaceAux : List Char → List Char → List (List Char)
  | [], acc => [acc.reverse]
  | c :: rest, acc =>
    if c = ' ' then acc.reverse :: splitSpaceAux rest []
    else splitSpaceAux rest (c :: acc)

/-- Split of a string on spaces, as the middleware splits the header. -/
def splitWords (s : String) : List String :=
  (splitSpaceAux s.toList []).map List.asString

/-- ASCII lowering of one character, the relevant case of the Go folding
comparison on the all-ASCII word bearer. -/
def lowerChar (c : Char) : Char :=
  if 'A' ≤ c ∧ c ≤ 'Z' then Char.ofNat (c.toNat + 32) else c

/-- Embedding of the case-insensitive comparison of the authorization type
with the word bearer. -/
def equalFold (a b : String) : Bool :=
  a.toList.map lowerChar == b.toList.map lowerChar

/-- Fields the middleware logs when it rejects a wrong token: method, path,
caller address and the rejected token. -/
structure AuthLogRecord where
  method : String
  path : String
  address : String
  token : String
deriving DecidableEq

/-- Outcome of the authentication middleware: a rejection with an HTTP status,
a reason and an optional audit log record, or forwarding to the next
handler. -/
inductive AuthOutcome where
  | rejected (status : Nat) (reason : String) (logged : Option AuthLogRecord)
  | forwarded
deriving DecidableEq

/-- Embedding of authHandler.ServeHTTP: an empty header (the value the Go
header lookup yields when the header is absent) is a 400 naming the header
mandatory; a header that does not split into exactly two space-separated
parts is a 400; a first part that is not bearer under case folding is a 400;
a second part different from the configured token is a 401 logged with the
caller address and the rejected token; otherwise the request is forwarded. -/
def authServeHTTP (cfgToken authorization method path remoteAddr : String) :
    AuthOutcome :=
  if authorization = "" then
    .rejected 400 "Authorization header is mandatory" none
  else
    let chunks := splitWords authorization
    if chunks.length ≠ 2 then
      .rejected 400 "Expected exactly 2 parts in the authorization header" none
    else
      let typ := chunks.getD 0 ""
      let token := chunks.getD 1 ""
      if ¬ equalFold typ "bearer" then
        .rejected 400 "Expected authorization type bearer" none
      else if token ≠ cfgToken then
        .rejected 401 "Wrong token"
          (some { method := method, path := path, address := remoteAddr,
                  token := token })
      else .forwarded

/-! ## Test handler (handlers file: postTestHandler.ServeHTTP) -/

/-- Decoded request body, the fields of api.Test the handler reads. -/
structure TestRequest where
  binary : List Nat
  args : List String
  env : List (String × String)
deriving DecidableEq

/-- Outcome of running the subprocess: it could not be spawned at all (the
run error is not an exit error), or it started and terminated with the given
exit status after writing the given bytes to the stdout and stderr files.
The exit status is 0 exactly when the run call returns no error. -/
inductive RunOutcome where
  | spawnFailure
  | completed (code : Int) (outBytes errBytes : List Nat)
deriving DecidableEq

/-- Oracle for the external effects of the handler: the decode of the body,
the identifier generation, the directory and file operations, the subprocess
run, and the reads of the two capture files (which, when they succeed, yield
exactly the bytes the subprocess wrote there). -/
structure ExecWorld where
  decoded : Option TestRequest
  uuidOk : Bool
  mkdirOk : Bool
  writeBinaryOk : Bool
  openOutOk : Bool
  openErrOk : Bool
  runOutcome : RunOutcome
  readOutOk : Bool
  readErrOk : Bool

/-- Response of the handler: an error response with a status and reason, or a
200 with the response body fields out, err and code. -/
inductive HandlerResult where
  | errorResponse (status : Nat) (reason : String)
  | ok (out err : List Nat) (code : Int)
deriving DecidableEq

/-- Embedding of postTestHandler.ServeHTTP, step by step in source order:
decode (400 on failure), identifier, directory, binary file, output file,
errors file (500 on each failure), run (500 when the process cannot be
spawned, otherwise the exit status becomes the code field), then the reads of
the two capture files (500 on failure) and the 200 response. -/
def postTestServeHTTP (w : ExecWorld) : HandlerResult :=
  match w.decoded with
  | none => .errorResponse 400 "Cant unmarshal request body"
  | some _ =>
    if ¬ w.uuidOk then .errorResponse 500 "Cant generate test identifier"
    else if ¬ w.mkdirOk then .errorResponse 500 "Cant generate test directory"
    else if ¬ w.writeBinaryOk then .errorResponse 500 "Cant create test binary file"
    else if ¬ w.openOutOk then .errorResponse 500 "Cant create output file"
    else if ¬ w.openErrOk then .errorResponse 500 "Cant open standard error file"
    else
      match w.runOutcome with
      | .spawnFailure => .errorResponse 500 "Cant execute test binary"
      | .completed code outBytes errBytes =>
        if ¬ w.readOutOk then .errorResponse 500 "Cant read output file"
        else if ¬ w.readErrOk then .errorResponse 500 "Cant read errors file"
        else .ok outBytes errBytes code

/-- Concrete world where every step succeeds and the subprocess exits with
status 3 after writing hi and e to the capture files. -/
def happyWorld : ExecWorld where
  decoded := some { binary := [7], args := ["-v"], env := [("K", "V")] }
  uuidOk := true
  mkdirOk := true
  writeBinaryOk := true
  openOutOk := true
  openErrOk := true
  runOutcome := .completed 3 [104, 105] [101]
  readOutOk := true
  readErrOk := true

/-- Concrete world identical to the happy one except that the subprocess
cannot be spawned. -/
def spawnFailWorld : ExecWorld :=
  { happyWorld with runOutcome := .spawnFailure }

/-! ## Wire protocol (spec section 6; the api package itself is not among the
provided sources, so the wire form is modelled from the spec) -/

/-- Character of one base64 sextet (RFC 4648 standard alphabet, the encoding
the JSON layer applies to byte sequences). -/
def sixToChar (n : Nat) : Char :=
  if n < 26 then Char.ofNat (65 + n)
  else if n < 52 then Char.ofNat (97 + (n - 26))
  else if n < 62 then Char.ofNat (48 + (n - 52))
  else if n = 62 then '+'
  else '/'

/-- Sextet value of one base64 character, none outside the alphabet. -/
def charToSix (c : Char) : Option Nat :=
  if 'A' ≤ c ∧ c ≤ 'Z' then some (c.toNat - 65)
  else if 'a' ≤ c ∧ c ≤ 'z' then some (c.toNat - 97 + 26)
  else if '0' ≤ c ∧ c ≤ '9' then some (c.toNat - 48 + 52)
  else if c = '+' then some 62
  else if c = '/' then some 63
  else none

/-- Base64 encoding of a byte list, three bytes to four characters with
padding on the final partial group. -/
def base64EncodeAux : List Nat → List Char
  | [] => []
  | [b0] => [sixToChar (b0 / 4), sixToChar (b0 % 4 * 16), '=', '=']
  | [b0, b1] =>
    [sixToChar (b0 / 4), sixToChar (b0 % 4 * 16 + b1 / 16),
     sixToChar (b1 % 16 * 4), '=']
  | b0 :: b1 :: b2 :: rest =>
    sixToChar (b0 / 4) :: sixToChar (b0 % 4 * 16 + b1 / 16) ::
      sixToChar (b1 % 16 * 4 + b2 / 64) :: sixToChar (b2 % 64) ::
        base64EncodeAux rest

/-- Base64 decoding, the inverse reading of four-character groups with
optional padding in the final group. -/
def base64DecodeAux : List Char → Option (List Nat)
  | [] => some []
  | c0 :: c1 :: c2 :: c3 :: rest =>
    if c2 = '=' then
      if c3 = '=' ∧ rest = [] then
        match charToSix c0, charToSix c1 with
        | some s0, some s1 => some [s0 * 4 + s1 / 16]
        | _, _ => none
      else none
    else if c3 = '=' then
      if rest = [] then
        match charToSix c0, charToSix c1, charToSix c2 with
        | some s0, some s1, some s2 =>
          some [s0 * 4 + s1 / 16, s1 % 16 * 16 + s2 / 4]
        | _, _, _ => none
      else none
    else
      match charToSix c0, charToSix c1, charToSix c2, charToSix c3,
          base64DecodeAux rest with
      | some s0, some s1, some s2, some s3, some bs =>
        some ((s0 * 4 + s1 / 16) :: (s1 % 16 * 16 + s2 / 4) ::
          (s2 % 4 * 64 + s3) :: bs)
      | _, _, _, _, _ => none
  | _ => none

/-- Base64 encoding to the wire string. -/
def base64Encode (bytes : List Nat) : String :=
  String.mk (base64EncodeAux bytes)

/-- Base64 decoding from the wire string. -/
def base64Decode (s : String) : Option (List Nat) :=
  base64DecodeAux s.toList

/-- Modelled from the spec: the ExecutionRequest value of the data model,
with the binary as a byte sequence, the ordered argument strings and the
environment mapping (represented as its list of entries). The api.Test type
carrying these fields on the wire is not among the provided sources. -/
structure ExecutionRequest where
  binary : List Nat
  args : List String
  env : List (String × String)
deriving DecidableEq

/-- Modelled from the spec: the ExecutionResult value, with the captured
output and error byte sequences and the integer exit code. -/
structure ExecutionResult where
  out : List Nat
  err : List Nat
  code : Int
deriving DecidableEq

/-- Modelled from the spec: the JSON wire object of a request, with the
binary base64-encoded into a string and the args and env carried as JSON
strings. -/
structure RequestWire where
  binary : String
  args : List String
  env : List (String × String)
deriving DecidableEq

/-- Modelled from the spec: the JSON wire object of a response, with out and
err base64-encoded and the integer code. -/
structure ResultWire where
  out : String
  err : String
  code : Int
deriving DecidableEq

/-- Encoding of an ExecutionRequest to its wire object. -/
def encodeRequest (r : ExecutionRequest) : RequestWire :=
  { binary := base64Encode r.binary, args := r.args, env := r.env }

/-- Decoding of a request wire object; fails when the base64 field does not
parse. -/
def decodeRequest (w : RequestWire) : Option ExecutionRequest :=
  match base64Decode w.binary with
  | none => none
  | some bytes => some { binary := bytes, args := w.args, env := w.env }

/-- Encoding of an ExecutionResult to its wire object. -/
def encodeResult (r : ExecutionResult) : ResultWire :=
  { out := base64Encode r.out, err := base64Encode r.err, code := r.code }

/-- Decoding of a result wire object. -/
def decodeResult (w : ResultWire) : Option ExecutionResult :=
  match base64Decode w.out with
  | none => none
  | some outBytes =>
    match base64Decode w.err with
    | none => none
    | some errBytes => some { out := outBytes, err := errBytes, code := w.code }

/-! ## Concrete values used by witnesses and counterexamples -/

/-- Ready condition of a pod. -/
def readyCond : PodCondition := { typ := "Ready", status := "True" }

/-- Ready pod named first. -/
def podFirst : Pod := { name := "first", conditions := [readyCond] }

/-- Ready pod named second. -/
def podSecond : Pod := { name := "second", conditions := [readyCond] }

/-- Ready pod whose name differs from the name the waiter was asked about. -/
def otherPod : Pod := { name := "other", conditions := [readyCond] }

/-- Admitted route whose name differs from the requested name. -/
def otherRoute : Route :=
  { name := "other", host := "h",
    ingress := [{ conditions := [{ typ := "Admitted", status := "True" }] }] }

/-! ## Helper lemmas -/

/-- Splitting the empty header yields a single empty word. -/
theorem splitWords_empty : splitWords "" = [""] := rfl

/-- Character list of a string built from a character list. -/
theorem mk_toList (l : List Char) : (String.mk l).toList = l := rfl

/-- Decoding the character of a sextet recovers the sextet. -/
theorem charToSix_sixToChar_fin :
    ∀ m : Fin 64, charToSix (sixToChar m.val) = some m.val := by decide

/-- Sextet characters are never the padding character. -/
theorem sixToChar_ne_pad_fin : ∀ m : Fin 64, sixToChar m.val ≠ '=' := by decide

/-- Decoding the character of a sextet recovers the sextet, Nat form. -/
theorem charToSix_sixToChar {n : Nat} (h : n < 64) :
    charToSix (sixToChar n) = some n := charToSix_sixToChar_fin ⟨n, h⟩

/-- Sextet characters are never the padding character, Nat form. -/
theorem sixToChar_ne_pad {n : Nat} (h : n < 64) : sixToChar n ≠ '=' :=
  sixToChar_ne_pad_fin ⟨n, h⟩

/-- Base64 decoding inverts base64 encoding on byte lists. -/
theorem base64_roundtrip_aux :
    ∀ bs : List Nat, (∀ b ∈ bs, b < 256) →
      base64DecodeAux (base64EncodeAux bs) = some bs
  | [], _ => rfl
  | [b0], h => by
    have hb0 : b0 < 256 := h b0 (by simp)
    simp only [base64EncodeAux, base64DecodeAux]
    rw [charToSix_sixToChar (by omega), charToSix_sixToChar (by omega)]
    simp
    omega
  | [b0, b1], h => by
    have hb0 : b0 < 256 := h b0 (by simp)
    have hb1 : b1 < 256 := h b1 (by simp)
    simp only [base64EncodeAux, base64DecodeAux]
    rw [if_neg (sixToChar_ne_pad (by omega))]
    rw [charToSix_sixToChar (by omega), charToSix_sixToChar (by omega),
      charToSix_sixToChar (by omega)]
    simp
    omega
  | b0 :: b1 :: b2 :: rest, h => by
    have hb0 : b0 < 256 := h b0 (by simp)
    have hb1 : b1 < 256 := h b1 (by simp)
    have hb2 : b2 < 256 := h b2 (by simp)
    have ih := base64_roundtrip_aux rest (fun b hb => h b (by simp [hb]))
    simp only [base64EncodeAux, base64DecodeAux]
    rw [if_neg (sixToChar_ne_pad (by omega)), if_neg (sixToChar_ne_pad (by omega))]
    rw [charToSix_sixToChar (by omega), charToSix_sixToChar (by omega),
      charToSix_sixToChar (by omega), charToSix_sixToChar (by omega), ih]
    simp
    omega

/-! ## Claim theorems -/

/-- C1. Teardown behavior of Runner.Destroy, evaluated on the code: a delete
of the project is issued exactly when keep (preservation) is TRUE — the
converse of the claim, which says deletion happens exactly when preservation
is not requested — while a not-found delete result is indeed normalized to
success and the cleaner pod is indeed not created when keep is true. -/
theorem runnerDestroy_deletes_exactly_when_keep :
    runnerDestroy true .ok = { deleteIssued := true, returnedError := false } ∧
    runnerDestroy true .notFound
      = { deleteIssued := true, returnedError := false } ∧
    runnerDestroy false .ok
      = { deleteIssued := false, returnedError := false } ∧
    runnerDestroy false .failure
      = { deleteIssued := false, returnedError := false } ∧
    buildArmsCleaner true = false ∧ buildArmsCleaner false = true := by
  decide

/-- C2. Readiness waits whose predicate is never satisfied within the watch
bound do NOT produce a timeout error: when the 60 second watch channel closes
without a ready pod or admitted route, both waiters return no resource and no
error at all, contradicting the claimed TimeoutError. -/
theorem waitForPod_timeout_returns_no_error :
    WaitForPod "proj" "server" [] = (none, none) ∧
    WaitForRoute "proj" "server" [] = (none, none) ∧
    WaitForPod "proj" "server"
        [.added (some { name := "server",
                        conditions := [{ typ := "Ready", status := "False" }] })]
      = (none, none) := by
  decide

/-- C6. Race of the started cleaner: a stop signal delivered strictly before
the wait duration elapses means the project is never deleted; when no stop
signal arrives in time, the single deletion attempt happens exactly at the
deadline, hence never earlier than the configured duration after start. -/
theorem cleaner_stop_race_spec (wait : Nat) (stopAt : Option Nat)
    (hw : 0 < wait) :
    (∀ t, stopAt = some t → t < wait →
       cleanerDeletionTime wait stopAt = none) ∧
    ((∀ t, stopAt = some t → wait ≤ t) →
       cleanerDeletionTime wait stopAt = some wait) ∧
    (∀ d, cleanerDeletionTime wait stopAt = some d → wait ≤ d) := by
  refine ⟨?_, ?_, ?_⟩
  · intro t ht hlt
    subst ht
    simp [cleanerDeletionTime, hlt]
  · intro hge
    cases stopAt with
    | none => simp [cleanerDeletionTime]
    | some t =>
      have := hge t rfl
      simp [cleanerDeletionTime, Nat.not_lt.mpr this]
  · intro d hd
    cases stopAt with
    | none =>
      simp [cleanerDeletionTime] at hd
      omega
    | some t =>
      by_cases h : t < wait
      · simp [cleanerDeletionTime, h] at hd
      · simp [cleanerDeletionTime, h] at hd
        omega

/-- C6 witness: with a five-unit wait, a stop at time two prevents the
deletion, and with no stop the deletion happens at time five. -/
theorem cleaner_stop_race_witness :
    cleanerDeletionTime 5 (some 2) = none ∧
    cleanerDeletionTime 5 none = some 5 :=
  ⟨(cleaner_stop_race_spec 5 (some 2) (by decide)).1 2 rfl (by decide),
   (cleaner_stop_race_spec 5 none (by decide)).2.1
     (fun t ht => Option.noConfusion ht)⟩

/-- Reachable cleaner states keep the stop channel open: Start opens it and
neither a timer expiry nor a completed Stop closes it. -/
theorem cleanerReachable_chan_opened {s : CleanerState}
    (h : CleanerReachable s) : s.chan = .opened := by
  induction h with
  | start => rfl
  | fire _ ih =>
    unfold timerFireStep
    split
    · simpa using ih
    · exact ih
  | stop _ heq ih =>
    unfold stopSendStep at heq
    split at heq
    · cases heq
      simpa using ih
    · cases heq

/-- C9. Destroy without a prior Stop is safe on every reachable started
cleaner state, whether or not the deadline has already fired: the close of
the stop channel succeeds (no fault), a goroutine still blocked in the select
takes the stop branch, and the deletion flag is unchanged — Destroy never
triggers a deletion by itself. -/
theorem cleaner_destroy_safe (s : CleanerState) (h : CleanerReachable s) :
    destroyStep s
      = some { chan := .closed, armed := false, deleted := s.deleted } := by
  have hc := cleanerReachable_chan_opened h
  cases s with
  | mk chan armed deleted =>
    simp only at hc
    subst hc
    rfl

/-- C9 witness: destroying right after Start succeeds and deletes nothing. -/
theorem cleaner_destroy_safe_witness :
    destroyStep cleanerStart
      = some { chan := .closed, armed := false, deleted := false } :=
  cleaner_destroy_safe cleanerStart CleanerReachable.start

/-- C8. Round trip of the wire encoding: encoding an ExecutionRequest or an
ExecutionResult to its JSON wire object and decoding it back yields an equal
value — the base64 binary, output and error byte sequences, the ordered
args, the env entries and the exit code are all preserved. -/
theorem wire_roundtrip_lossless (r : ExecutionRequest) (res : ExecutionResult)
    (hb : ∀ b ∈ r.binary, b < 256) (ho : ∀ b ∈ res.out, b < 256)
    (he : ∀ b ∈ res.err, b < 256) :
    decodeRequest (encodeRequest r) = some r ∧
    decodeResult (encodeResult res) = some res := by
  constructor
  · simp [decodeRequest, encodeRequest, base64Decode, base64Encode, mk_toList,
      base64_roundtrip_aux r.binary hb]
  · simp [decodeResult, encodeResult, base64Decode, base64Encode, mk_toList,
      base64_roundtrip_aux res.out ho, base64_roundtrip_aux res.err he]

/-- C8 witness: round trip of a concrete request and a concrete result. -/
theorem wire_roundtrip_lossless_witness :
    decodeRequest (encodeRequest
        { binary := [0, 1, 255], args := ["-v"], env := [("K", "V")] })
      = some { binary := [0, 1, 255], args := ["-v"], env := [("K", "V")] } ∧
    decodeResult (encodeResult { out := [104, 105], err := [], code := 7 })
      = some { out := [104, 105], err := [], code := 7 } :=
  wire_roundtrip_lossless
    { binary := [0, 1, 255], args := ["-v"], env := [("K", "V")] }
    { out := [104, 105], err := [], code := 7 }
    (by decide) (by decide) (by decide)

/-- C4. Handler result for a request whose body decodes and whose filesystem
steps succeed: when the subprocess starts, the 200 response carries exactly
the exit status of the subprocess as its code and, byte for byte, the bytes
the subprocess wrote to stdout and stderr; when the subprocess cannot be
spawned at all, the handler answers 500 with no result body, never encoding
the failure as an exit code. -/
theorem postTestHandler_result_spec (w : ExecWorld) (req : TestRequest)
    (hdec : w.decoded = some req) (huuid : w.uuidOk = true)
    (hmkdir : w.mkdirOk = true) (hwrite : w.writeBinaryOk = true)
    (hopenOut : w.openOutOk = true) (hopenErr : w.openErrOk = true)
    (hreadOut : w.readOutOk = true) (hreadErr : w.readErrOk = true) :
    (∀ code outBytes errBytes,
       w.runOutcome = .completed code outBytes errBytes →
         postTestServeHTTP w = .ok outBytes errBytes code) ∧
    (w.runOutcome = .spawnFailure →
       postTestServeHTTP w = .errorResponse 500 "Cant execute test binary") := by
  constructor
  · intro code outBytes errBytes hrun
    simp [postTestServeHTTP, hdec, huuid, hmkdir, hwrite, hopenOut, hopenErr,
      hreadOut, hreadErr, hrun]
  · intro hrun
    simp [postTestServeHTTP, hdec, huuid, hmkdir, hwrite, hopenOut, hopenErr,
      hrun]

/-- C4 witness: the happy world returns the written bytes and exit status 3;
the spawn-failure world returns the 500 error. -/
theorem postTestHandler_result_witness :
    postTestServeHTTP happyWorld = .ok [104, 105] [101] 3 ∧
    postTestServeHTTP spawnFailWorld
      = .errorResponse 500 "Cant execute test binary" :=
  ⟨(postTestHandler_result_spec happyWorld
      { binary := [7], args := ["-v"], env := [("K", "V")] }
      rfl rfl rfl rfl rfl rfl rfl rfl).1 3 [104, 105] [101] rfl,
   (postTestHandler_result_spec spawnFailWorld
      { binary := [7], args := ["-v"], env := [("K", "V")] }
      rfl rfl rfl rfl rfl rfl rfl rfl).2 rfl⟩

/-- C5. Authentication gate: an absent Authorization header is rejected with
status 400 and the reason naming the header mandatory; a well-formed bearer
credential (two space-separated parts whose first folds to bearer) with a
token different from the configured one is rejected with status 401 and the
rejection is logged with the caller address and the rejected token; a
matching token forwards the request to the next handler. -/
theorem authHandler_gate_spec
    (cfgToken auth method path addr typ t : String) :
    (authServeHTTP cfgToken "" method path addr
       = .rejected 400 "Authorization header is mandatory" none) ∧
    (splitWords auth = [typ, t] → equalFold typ "bearer" = true →
       t ≠ cfgToken →
         authServeHTTP cfgToken auth method path addr
           = .rejected 401 "Wrong token"
               (some { method := method, path := path, address := addr,
                       token := t })) ∧
    (splitWords auth = [typ, cfgToken] → equalFold typ "bearer" = true →
       authServeHTTP cfgToken auth method path addr = .forwarded) := by
  have hignore : ∀ s : String, splitWords s = [typ, t] ∨
      splitWords s = [typ, cfgToken] → s ≠ "" := by
    intro s hs h0
    subst h0
    rcases hs with hs | hs <;> rw [splitWords_empty] at hs <;> cases hs
  refine ⟨rfl, ?_, ?_⟩
  · intro hsplit hfold hne
    have hauth : auth ≠ "" := hignore auth (Or.inl hsplit)
    simp [authServeHTTP, hauth, hsplit, hfold, hne]
  · intro hsplit hfold
    have hauth : auth ≠ "" := hignore auth (Or.inr hsplit)
    simp [authServeHTTP, hauth, hsplit, hfold]

/-- C5 witness: with configured token secret, the empty header is a 400, the
header Bearer wrong is a 401 logged with address and token, and the header
Bearer secret is forwarded. -/
theorem authHandler_gate_witness :
    authServeHTTP "secret" "" "POST" "/api/v1/tests" "10.0.0.7"
      = .rejected 400 "Authorization header is mandatory" none ∧
    authServeHTTP "secret" "Bearer wrong" "POST" "/api/v1/tests" "10.0.0.7"
      = .rejected 401 "Wrong token"
          (some { method := "POST", path := "/api/v1/tests",
                  address := "10.0.0.7", token := "wrong" }) ∧
    authServeHTTP "secret" "Bearer secret" "POST" "/api/v1/tests" "10.0.0.7"
      = .forwarded :=
  ⟨(authHandler_gate_spec "secret" "" "POST" "/api/v1/tests" "10.0.0.7"
      "Bearer" "wrong").1,
   (authHandler_gate_spec "secret" "Bearer wrong" "POST" "/api/v1/tests"
      "10.0.0.7" "Bearer" "wrong").2.1 (by decide) (by decide) (by decide),
   (authHandler_gate_spec "secret" "Bearer secret" "POST" "/api/v1/tests"
      "10.0.0.7" "Bearer" "wrong").2.2 (by decide) (by decide)⟩

/-- Closed form of the batch loop: the requests sent are exactly the
successfully read payloads in processing order, and the failure counter
counts the binaries whose reply carried a nonzero exit code. -/
theorem runBinaries_eq (o : RunOracle) (l : List String) :
    runBinaries o l
      = { requests := l.filterMap o.readFile,
          failed := l.countP (failedBinary o) } := by
  induction l with
  | nil => rfl
  | cons b rest ih =>
    cases hr : o.readFile b with
    | none =>
      simp [runBinaries, hr, ih, List.filterMap_cons, List.countP_cons,
        failedBinary]
    | some bytes =>
      cases hs : serverSend o bytes with
      | none =>
        simp [runBinaries, hr, hs, ih, List.filterMap_cons, List.countP_cons,
          failedBinary]
      | some rep =>
        simp [runBinaries, hr, hs, ih, List.filterMap_cons, List.countP_cons,
          failedBinary]
        by_cases hc : rep.code = 0 <;> simp [hc] <;> omega

/-- C3 counterexample: with the oracle whose first binary dies in transport,
the runner still sends the request of the second binary — the batch is not
aborted by a send failure, contradicting the claim. -/
theorem runnerRun_sends_after_send_failure :
    serverSend sendFailureOracle [1] = none ∧
    runnerRun sendFailureOracle ["a.test", "b.test"]
      = { requests := [[1], [2]], failed := 0 } := by decide

/-- C3 amended. Runner.Run never aborts the batch: the requests it sends are
exactly the successfully read binaries in sorted order, independent of every
send outcome (a transport or authentication failure of one send is logged,
the binary is skipped and not counted as failed, and the batch continues),
and the failure counter counts exactly the binaries whose reply carried a
nonzero exit code. -/
theorem runnerRun_never_aborts (readFile : String → Option (List Nat))
    (httpDo1 httpDo2 : List Nat → Option (Nat × SendReply))
    (binaries : List String) :
    (runnerRun { readFile := readFile, httpDo := httpDo1 } binaries).requests
      = (sortStrings binaries).filterMap readFile ∧
    (runnerRun { readFile := readFile, httpDo := httpDo1 } binaries).requests
      = (runnerRun { readFile := readFile, httpDo := httpDo2 }
          binaries).requests ∧
    (runnerRun { readFile := readFile, httpDo := httpDo1 } binaries).failed
      = (sortStrings binaries).countP
          (failedBinary { readFile := readFile, httpDo := httpDo1 }) := by
  simp [runnerRun, runBinaries_eq]

/-- Totality of the byte-order comparison. -/
theorem lexLe_total :
    ∀ as bs : List Char, lexLe as bs = true ∨ lexLe bs as = true := by
  intro as
  induction as with
  | nil => intro bs; left; rfl
  | cons a as ih =>
    intro bs
    cases bs with
    | nil => right; rfl
    | cons b bs =>
      simp only [lexLe]
      rcases Nat.lt_trichotomy a.toNat b.toNat with h | h | h
      · left; simp [h]
      · rcases ih bs with h2 | h2
        · left; simp [h, h2]
        · right; simp [← h, h2]
      · right; simp [h]

/-- Transitivity of the byte-order comparison. -/
theorem lexLe_trans :
    ∀ as bs cs : List Char, lexLe as bs = true → lexLe bs cs = true →
      lexLe as cs = true := by
  intro as
  induction as with
  | nil => intro bs cs _ _; rfl
  | cons a as ih =>
    intro bs cs h1 h2
    cases bs with
    | nil => simp [lexLe] at h1
    | cons b bs =>
      cases cs with
      | nil => simp [lexLe] at h2
      | cons c cs =>
        simp only [lexLe] at h1 h2 ⊢
        split_ifs at h1 h2 ⊢
        all_goals try rfl
        all_goals try simp at h1
        all_goals try simp at h2
        all_goals try omega
        all_goals exact ih bs cs h1 h2

/-- C7. Runner.Run with every binary readable: exactly one request is sent
per discovered binary (the request list has the length of the binaries
list), the requests are the read payloads in processing order, the
processing order is the lexicographically sorted order of the binaries (one
blocking send at a time, by construction of the loop), and the returned
failure count equals the number of binaries whose reply carried a nonzero
exit code. -/
theorem runnerRun_sequential_spec (o : RunOracle) (binaries : List String)
    (hread : ∀ b ∈ binaries, (o.readFile b).isSome = true) :
    (runnerRun o binaries).requests.length = binaries.length ∧
    (runnerRun o binaries).requests
      = (sortStrings binaries).filterMap o.readFile ∧
    List.Sorted strLE (sortStrings binaries) ∧
    (sortStrings binaries).Perm binaries ∧
    (runnerRun o binaries).failed
      = (sortStrings binaries).countP (failedBinary o) := by
  haveI : IsTotal String strLE := ⟨fun a b => lexLe_total a.toList b.toList⟩
  haveI : IsTrans String strLE :=
    ⟨fun a b c h1 h2 => lexLe_trans a.toList b.toList c.toList h1 h2⟩
  have hperm : (sortStrings binaries).Perm binaries :=
    List.perm_insertionSort strLE binaries
  have hlen : ∀ l : List String, (∀ b ∈ l, (o.readFile b).isSome = true) →
      (l.filterMap o.readFile).length = l.length := by
    intro l
    induction l with
    | nil => intro _; rfl
    | cons b rest ih =>
      intro hl
      have hb := hl b (by simp)
      cases hr : o.readFile b with
      | none => rw [hr] at hb; simp at hb
      | some bytes =>
        simp only [List.filterMap_cons, hr, List.length_cons]
        rw [ih (fun x hx => hl x (by simp [hx]))]
  refine ⟨?_, ?_, ?_, hperm, ?_⟩
  · rw [runnerRun, runBinaries_eq]
    have hmem : ∀ b ∈ sortStrings binaries, (o.readFile b).isSome = true :=
      fun b hb => hread b (hperm.mem_iff.mp hb)
    simpa [hlen (sortStrings binaries) hmem] using hperm.length_eq
  · rw [runnerRun, runBinaries_eq]
  · exact List.sorted_insertionSort strLE binaries
  · rw [runnerRun, runBinaries_eq]

/-- C7 witness: with the happy oracle and the binaries listed out of order,
two requests are sent, in sorted order, and exactly one failure is
counted. -/
theorem runnerRun_sequential_witness :
    (runnerRun happyOracle ["b.test", "a.test"]).requests.length = 2 ∧
    runnerRun happyOracle ["b.test", "a.test"]
      = { requests := [[1], [2]], failed := 1 } := by
  have h := runnerRun_sequential_spec happyOracle ["b.test", "a.test"]
    (by decide)
  exact ⟨h.1, by decide⟩

/-- Pod result of the wait loop does not depend on the requested name (the
name only appears in error message text). -/
theorem waitForPodLoop_fst_name (n1 n2 : String) :
    ∀ (events : List (WatchEvent Pod)) (acc : Option Pod),
      (waitForPodLoop n1 events acc).fst = (waitForPodLoop n2 events acc).fst
  | [], _ => rfl
  | .added obj :: rest, acc => by
    cases obj with
    | none => exact waitForPodLoop_fst_name n1 n2 rest acc
    | some p =>
      by_cases hp : isPodReady p <;>
        simp [waitForPodLoop, hp, waitForPodLoop_fst_name n1 n2 rest]
  | .modified obj :: rest, acc => by
    cases obj with
    | none => exact waitForPodLoop_fst_name n1 n2 rest acc
    | some p =>
      by_cases hp : isPodReady p <;>
        simp [waitForPodLoop, hp, waitForPodLoop_fst_name n1 n2 rest]
  | .deleted :: _, _ => rfl
  | .errorEvent :: _, _ => rfl
  | .unknown :: rest, acc => waitForPodLoop_fst_name n1 n2 rest acc

/-- Route result of the wait loop does not depend on the requested name. -/
theorem waitForRouteLoop_fst_name (n1 n2 : String) :
    ∀ (events : List (WatchEvent Route)) (acc : Option Route),
      (waitForRouteLoop n1 events acc).fst
        = (waitForRouteLoop n2 events acc).fst
  | [], _ => rfl
  | .added obj :: rest, acc => by
    cases obj with
    | none => exact waitForRouteLoop_fst_name n1 n2 rest acc
    | some r =>
      by_cases hr : isRouteAdmitted r <;>
        simp [waitForRouteLoop, hr, waitForRouteLoop_fst_name n1 n2 rest]
  | .modified obj :: rest, acc => by
    cases obj with
    | none => exact waitForRouteLoop_fst_name n1 n2 rest acc
    | some r =>
      by_cases hr : isRouteAdmitted r <;>
        simp [waitForRouteLoop, hr, waitForRouteLoop_fst_name n1 n2 rest]
  | .deleted :: _, _ => rfl
  | .errorEvent :: _, _ => rfl
  | .unknown :: rest, acc => waitForRouteLoop_fst_name n1 n2 rest acc

/-- Wait loop on a stream with no Deleted and no Error event: it runs to the
end of the stream and keeps the most recently observed ready pod. -/
theorem waitForPodLoop_benign (name : String) :
    ∀ (events : List (WatchEvent Pod)) (acc : Option Pod),
      benignStream events →
      waitForPodLoop name events acc
        = (events.foldl (fun a e =>
            match e with
            | .added (some p) => if isPodReady p then some p else a
            | .modified (some p) => if isPodReady p then some p else a
            | _ => a) acc, none)
  | [], _, _ => rfl
  | e :: rest, acc, h => by
    have hrest : benignStream rest := fun x hx => h x (List.mem_cons_of_mem _ hx)
    have he := h e (List.mem_cons_self _ _)
    cases e with
    | added obj =>
      cases obj with
      | none =>
        simpa [waitForPodLoop] using waitForPodLoop_benign name rest acc hrest
      | some p =>
        by_cases hp : isPodReady p <;>
          simp [waitForPodLoop, hp, waitForPodLoop_benign name rest _ hrest]
    | modified obj =>
      cases obj with
      | none =>
        simpa [waitForPodLoop] using waitForPodLoop_benign name rest acc hrest
      | some p =>
        by_cases hp : isPodReady p <;>
          simp [waitForPodLoop, hp, waitForPodLoop_benign name rest _ hrest]
    | deleted => exact absurd rfl he.1
    | errorEvent => exact absurd rfl he.2
    | unknown =>
      simpa [waitForPodLoop] using waitForPodLoop_benign name rest acc hrest

/-- Wait loop on a benign route stream keeps the most recently observed
admitted route. -/
theorem waitForRouteLoop_benign (name : String) :
    ∀ (events : List (WatchEvent Route)) (acc : Option Route),
      benignStream events →
      waitForRouteLoop name events acc
        = (events.foldl (fun a e =>
            match e with
            | .added (some r) => if isRouteAdmitted r then some r else a
            | .modified (some r) => if isRouteAdmitted r then some r else a
            | _ => a) acc, none)
  | [], _, _ => rfl
  | e :: rest, acc, h => by
    have hrest : benignStream rest := fun x hx => h x (List.mem_cons_of_mem _ hx)
    have he := h e (List.mem_cons_self _ _)
    cases e with
    | added obj =>
      cases obj with
      | none =>
        simpa [waitForRouteLoop] using waitForRouteLoop_benign name rest acc hrest
      | some r =>
        by_cases hr : isRouteAdmitted r <;>
          simp [waitForRouteLoop, hr, waitForRouteLoop_benign name rest _ hrest]
    | modified obj =>
      cases obj with
      | none =>
        simpa [waitForRouteLoop] using waitForRouteLoop_benign name rest acc hrest
      | some r =>
        by_cases hr : isRouteAdmitted r <;>
          simp [waitForRouteLoop, hr, waitForRouteLoop_benign name rest _ hrest]
    | deleted => exact absurd rfl he.1
    | errorEvent => exact absurd rfl he.2
    | unknown =>
      simpa [waitForRouteLoop] using waitForRouteLoop_benign name rest acc hrest

/-- C10 counterexample: when two ready pods are observed, the wait returns
the SECOND one, not the first — the source requests Stop on the first ready
pod but its break only leaves the switch, so a later delivered ready event
overwrites the recorded pod. -/
theorem waitForPod_returns_second_ready :
    WaitForPod "proj" "server"
        [.added (some podFirst), .added (some podSecond)]
      = (some podSecond, none) ∧ podSecond ≠ podFirst := by decide

/-- C10 amended. The waiters never compare an observed resource against the
requested name: the returned pod or route is the same under any requested
name (the name only reaches log and error text), and on a stream with no
Deleted and no Error event the wait resolves to the most recently observed
ready pod, or admitted route, of any name. -/
theorem wait_name_blind_spec (project n1 n2 : String)
    (pevents : List (WatchEvent Pod)) (revents : List (WatchEvent Route)) :
    (WaitForPod project n1 pevents).fst
      = (WaitForPod project n2 pevents).fst ∧
    (WaitForRoute project n1 revents).fst
      = (WaitForRoute project n2 revents).fst ∧
    (benignStream pevents →
       WaitForPod project n1 pevents = (lastReadyPod pevents, none)) ∧
    (benignStream revents →
       WaitForRoute project n1 revents = (lastAdmittedRoute revents, none)) := by
  refine ⟨waitForPodLoop_fst_name n1 n2 pevents none,
    waitForRouteLoop_fst_name n1 n2 revents none, ?_, ?_⟩
  · intro hp
    exact waitForPodLoop_benign n1 pevents none hp
  · intro hr
    exact waitForRouteLoop_benign n1 revents none hr

/-- C10 witness: a ready pod and an admitted route named other resolve waits
that asked about the name server, and the result is the same when the wait
asks about a different name. -/
theorem wait_name_blind_witness :
    (WaitForPod "proj" "server" [.added (some otherPod)]).fst
      = (WaitForPod "proj" "x" [.added (some otherPod)]).fst ∧
    WaitForPod "proj" "server" [.added (some otherPod)]
      = (some otherPod, none) ∧
    WaitForRoute "proj" "server" [.added (some otherRoute)]
      = (some otherRoute, none) := by
  have h := wait_name_blind_spec "proj" "server" "x"
    [.added (some otherPod)] [.added (some otherRoute)]
  exact ⟨h.1, h.2.2.1 (by unfold benignStream; decide),
    h.2.2.2 (by unfold benignStream; decide)⟩

end Sandbox
